import Mathlib

/-!
Verification development for the SYN-C language runtime
(`src/sync/converter_sync.py`, `src/sync/executor_sync.py`).

The Python sources are shallowly embedded as executable Lean functions:

* Python unbounded integers become `Int`; memory words are the Python
  non-negative integers the interpreter stores, also kept as `Int`
  because intermediate address arithmetic can be negative.
* The program memory (`defaultdict(int)`) becomes an association list
  with default value `0`.  (Python's `defaultdict` inserts a `0` entry
  when a missing key is read; that mutation is observable only by
  iterating the dictionary, which the source never does.)
* Fallible Python code (raising exceptions) returns `Except Err`.
* The generator-based tree walker of `executor_sync.py` yields steps
  `(elementary, value, line, char)`; consumers may abandon a generator
  mid-run after a control-signal value (`('RETURN', v)`, `'BREAK'`,
  `'CONTINUE'`).  Following the explicit-control-signal reading of the
  design (a tagged result returned by every statement execution,
  intercepted by loops and by the function-call boundary), statement
  execution here returns the produced step list, the updated state and a
  `Sig`; an enclosing construct stops a block at a signal exactly where
  the Python consumers break out of the corresponding generator.  The two
  presentations agree step for step whenever `BREAK`/`CONTINUE` occur
  only inside loop bodies and `RETURN` only inside function bodies.
* Loops and recursive calls are modelled with explicit fuel, every
  recursive call consuming one unit; any concrete terminating run is
  reproduced by giving enough fuel.
* Out of scope of this embedding (and of every claim below): IEEE-754
  float operations, randomness (`RAND`/`SRAND`), the structure
  declarations and `MALLOC_STRUCT`, string/char literals inside
  expressions, and the remaining built-ins; reaching them yields a
  distinguished error.  The `char` component of step/position metadata
  is dropped; the `line` component is kept, used by nothing but error
  reporting in the source, and is treated as a node identifier supplied
  by the front end.
-/

namespace SynC

/-- The closed error taxonomy of `execution_exceptions.py`, restricted to the
kinds reachable from the embedded fragment, plus bookkeeping errors for
fuel exhaustion and for Python-level type errors on unreachable paths. -/
inductive Err where
  | memoryAccess
  | readOnlyWrite
  | memoryExceeded
  | mallocNegativeSize
  | freeNotAllocatedPointer
  | undeclaredVariable
  | undeclaredFunction
  | incorrectNumberOfParameters
  | wrongCharacterCode
  | wrongBooleanCode
  | wrongPointerCode
  | mathDomain
  | noMainFunction
  | mainFunctionWithParameters
  | sameNameFunction
  | sameParametersName
  | sameGlobalVariableName
  | globalAndParameterName
  | nonValidInteger
  | invalidTypeParameter
  | internalTypeError
  | unmodeledBuiltin
  | unmodeledLiteral
  | unmodeledFloat
  | outOfFuel
deriving DecidableEq, Repr

/-! ## Value codec (`converter_sync.py`) -/

def MAX_NB_BITS : Nat := 32

def INT_NB_BITS : Nat := MAX_NB_BITS

def POINTER_NB_BITS : Nat := 24

def CHAR_NB_BITS : Nat := 7

def NULL_ADDRESS : Int := 0

def MEMORY_SIZE : Int := 2 ^ POINTER_NB_BITS

/-- `bin_to_int`: a stored word below `2^31` is itself, otherwise the word
minus `2^32` (two's complement decode). -/
def bin_to_int (x : Int) : Int :=
  if x < 2 ^ (INT_NB_BITS - 1) then x else x - 2 ^ INT_NB_BITS

/-- First normalisation loop of `int_to_bin` with `overflow=True`:
`while x >= 2**31: x -= 2**32`. -/
def wrapHigh (x : Int) : Int :=
  if 2 ^ (INT_NB_BITS - 1) ≤ x then wrapHigh (x - 2 ^ INT_NB_BITS) else x
termination_by (x - 2 ^ (INT_NB_BITS - 1) + 1).toNat
decreasing_by simp only [INT_NB_BITS, MAX_NB_BITS] at *; omega

/-- Second normalisation loop of `int_to_bin` with `overflow=True`:
`while x < -2**32: x += 2**32` (the loop bound in the source is `-2**32`,
not `-2**31`). -/
def wrapLow (x : Int) : Int :=
  if x < -(2 ^ INT_NB_BITS) then wrapLow (x + 2 ^ INT_NB_BITS) else x
termination_by (-x - 2 ^ INT_NB_BITS + 1).toNat
decreasing_by simp only [INT_NB_BITS, MAX_NB_BITS] at *; omega

/-- `int_to_bin`: inverse of `bin_to_int`; with `overflow` the value is first
pulled back by the two normalisation loops, then negatives get `2^32`
added. -/
def int_to_bin (x : Int) (overflow : Bool) : Int :=
  let x := if overflow then wrapLow (wrapHigh x) else x
  if x < 0 then x + 2 ^ INT_NB_BITS else x

/-- `bool_to_bin`: `True ↦ 1`, `False ↦ 0`. -/
def bool_to_bin (x : Bool) : Int :=
  if x then 1 else 0

/-- `bin_to_bool`: `1 ↦ True`, `0 ↦ False`, anything else raises
`WrongBooleanCodeError`. -/
def bin_to_bool (x : Int) : Except Err Bool :=
  if x = 1 then .ok true
  else if x = 0 then .ok false
  else .error .wrongBooleanCode

/-- `bin_to_char`: the source test is `x <= 2**CHAR_NB_BITS`, i.e. `x ≤ 128`;
larger values raise `WrongCharacterCodeError`.  (A negative argument raises
a Python `ValueError` inside `chr`; callers only pass stored words `≥ 0`,
so that path is left to `Char.ofNat`'s default.) -/
def bin_to_char (x : Int) : Except Err Char :=
  if x ≤ 2 ^ CHAR_NB_BITS then .ok (Char.ofNat x.toNat)
  else .error .wrongCharacterCode

/-- `bin_to_pointer`: identical to `bin_to_int` except that a word at or
above `2^24` raises `WrongPointerCodeError`. -/
def bin_to_pointer (x : Int) : Except Err Int :=
  if x < MEMORY_SIZE then .ok (bin_to_int x)
  else .error .wrongPointerCode

/-- `pointer_to_bin`: same encoding as `int_to_bin` without overflow. -/
def pointer_to_bin (x : Int) : Int :=
  int_to_bin x false

/-- `literal_to_bin`: word codes of the `NULL`, `FALSE`, `TRUE` keywords.
(The source returns `None` on any other string; that is unreachable and
modelled as `0`.) -/
def literal_to_bin (x : String) : Int :=
  if x = "NULL" then NULL_ADDRESS
  else if x = "FALSE" then 0
  else if x = "TRUE" then 1
  else 0

/-! ## Program memory (`SynCProgram.__init__`, `_get_memory`, `_set_memory`) -/

/-- The memory dictionary: association list from addresses to words, default
value `0` for never-written addresses. -/
def memGet (m : List (Int × Int)) (a : Int) : Int :=
  match m with
  | [] => 0
  | p :: r => if p.1 = a then p.2 else memGet r a

/-- Dictionary update: replace the entry for `a` if present, otherwise add
one. -/
def memSet (m : List (Int × Int)) (a v : Int) : List (Int × Int) :=
  match m with
  | [] => [(a, v)]
  | p :: r => if p.1 = a then (a, v) :: r else p :: memSet r a v

/-- The mutable execution state of one running program (the fields of
`SynCProgram` that execution reads or writes).  `output`/`outputErr` stand
for the two output channels written by `print`; the input buffer of `READ`
is modelled separately with `read_builtin`. -/
structure PState where
  memory : List (Int × Int)
  read_write_stack_limit : Int
  memory_heap : List (Int × Int)
  global_variables : List String
  local_variables : List (List String)
  output : String
  outputErr : String
deriving DecidableEq, Repr

/-- `_get_memory`: bounds check `0 < address < 2^24`, then dictionary read
(default `0`). -/
def get_memory (st : PState) (address : Int) : Except Err Int :=
  if address ≤ 0 ∨ MEMORY_SIZE ≤ address then .error .memoryAccess
  else .ok (memGet st.memory address)

/-- `_set_memory`: same bounds check, plus the read-only check against
`read_write_stack_limit`, then dictionary write. -/
def set_memory (st : PState) (address v : Int) : Except Err PState :=
  if address ≤ 0 ∨ MEMORY_SIZE ≤ address then .error .memoryAccess
  else if address < st.read_write_stack_limit then .error .readOnlyWrite
  else .ok { st with memory := memSet st.memory address v }

/-- `_check_memory_limit_exceeded`: true when
`read_write_stack_limit + Σ (length of each local frame)` is strictly below
`address` (defaulted to the lowest heap block's start, or the memory size
when the heap is empty).  Note the sum ranges over local frames only; the
global variables are not added. -/
def check_memory_limit_exceeded (st : PState) (addr? : Option Int) : Bool :=
  let lastAddress : Int :=
    st.read_write_stack_limit + ((st.local_variables.map List.length).sum : Nat)
  let address : Int :=
    match addr? with
    | some a => a
    | none =>
      match st.memory_heap.getLast? with
      | none => MEMORY_SIZE
      | some b => b.1
  decide (lastAddress < address)

/-! ## Heap allocator (`_malloc`, `_free`) -/

/-- The scan loop of `_malloc` over a non-empty heap list: `prev` is the
`previous_address` accumulator (initially the memory size), `idx` the index
of the block being examined.  The new block fits between block `(a, sz)`
and the previous one only when `a + sz + size < prev` (strict); exhausting
the list places the block immediately below the lowest block (`prev` then
holds its start address). -/
def mallocScanAux (prev : Int) (hs : List (Int × Int)) (idx : Nat) (size : Int) :
    Int × Nat :=
  match hs with
  | [] => (prev - size, idx)
  | (a, sz) :: rest =>
    if a + sz + size < prev then (a + sz, idx)
    else mallocScanAux a rest (idx + 1) size

/-- The address/insertion-index choice of `_malloc`: an empty heap places the
block flush against the top of memory; otherwise the descending scan
`mallocScanAux` runs with `previous_address = MEMORY_SIZE`. -/
def mallocScan (hs : List (Int × Int)) (size : Int) : Int × Nat :=
  match hs with
  | [] => (MEMORY_SIZE - size, 0)
  | _ :: _ => mallocScanAux MEMORY_SIZE hs 0 size

/-- Python `list.insert`. -/
def insertAt (i : Nat) (x : α) (l : List α) : List α :=
  match i, l with
  | 0, l => x :: l
  | _ + 1, [] => [x]
  | i + 1, y :: r => y :: insertAt i x r

/-- `_malloc`: non-positive sizes raise `MallocNegativeSizeError`; otherwise
the scanned placement is committed only if its start address passes
`_check_memory_limit_exceeded`, else the NULL word is returned with the
state untouched. -/
def malloc (st : PState) (size : Int) : Except Err (Int × PState) :=
  if size ≤ 0 then .error .mallocNegativeSize
  else
    let p := mallocScan st.memory_heap size
    if ¬ check_memory_limit_exceeded st (some p.1) then
      .ok (pointer_to_bin NULL_ADDRESS, st)
    else
      .ok (p.1, { st with memory_heap := insertAt p.2 (p.1, size) st.memory_heap })

/-- The deletion loop of `_free`: remove the first block whose start address
equals the pointer, `none` when there is no such block. -/
def removeBlock (hs : List (Int × Int)) (pointer : Int) : Option (List (Int × Int)) :=
  match hs with
  | [] => none
  | (a, sz) :: r =>
    if a = pointer then some r
    else (removeBlock r pointer).map (fun r2 => (a, sz) :: r2)

/-- `_free`: drop the block starting at `pointer` from the heap list (the
memory dictionary itself is not touched); raise `FreeNotAllocatedPointer`
when no block starts there. -/
def free (st : PState) (pointer : Int) : Except Err PState :=
  match removeBlock st.memory_heap pointer with
  | some hs => .ok { st with memory_heap := hs }
  | none => .error .freeNotAllocatedPointer

/-- `_get_variable_address`: globals live at `read_write_stack_limit + index`;
a local of the current (last) frame lives above all globals and all earlier
frames.  (With an empty frame stack the source raises an `IndexError`;
statements only run inside a frame, so that path is folded into the
undeclared-variable error.) -/
def get_variable_address (st : PState) (name : String) : Except Err Int :=
  match st.global_variables.findIdx? (fun g => g = name) with
  | some idx => .ok (st.read_write_stack_limit + (idx : Nat))
  | none =>
    let base : Int := st.read_write_stack_limit + (st.global_variables.length : Nat) +
      ((st.local_variables.dropLast.map List.length).sum : Nat)
    match st.local_variables.getLast? with
    | none => .error .undeclaredVariable
    | some frame =>
      match frame.findIdx? (fun v => v = name) with
      | some idx => .ok (base + (idx : Nat))
      | none => .error .undeclaredVariable

/-- `_get_string_from_address`: walk the memory from `address`, decoding each
word as a character, until the NUL character; `fuel` bounds the walk. -/
def get_string_from_address (fuel : Nat) (st : PState) (address : Int) :
    Except Err String :=
  match fuel with
  | 0 => .error .outOfFuel
  | fuel + 1 => do
    let c ← bin_to_char (← get_memory st address)
    if c = Char.ofNat 0 then .ok ""
    else do
      let s ← get_string_from_address fuel st (address + 1)
      .ok (String.mk [c] ++ s)

/-! ## The `READ` built-in (`_execute_call`, `READ` branch) -/

/-- Python `int(s, 2)` on a string of binary digits. -/
def binDigitsToInt (digits : List Char) : Int :=
  digits.foldl (fun acc c => 2 * acc + (if c = '1' then 1 else 0)) 0

/-- The `READ` loop: drain the whole input buffer, appending every `'0'`/`'1'`
character to the accumulator `bin` and discarding the rest; while fewer than
32 digits have accumulated, pull the next input line into the buffer and
drain again; once at least 32 digits are present, decode **all** accumulated
digits with `int(bin, 2)`.  `lines` models the successive results of
`input()`; an exhausted `lines` models `input()` raising end-of-file.
Returns the decoded integer, the (always empty) final buffer and the unread
lines. -/
def read_builtin (lines : List (List Char)) (buffer bin : List Char) :
    Option (Int × List Char × List (List Char)) :=
  let bin2 := bin ++ buffer.filter (fun c => c = '0' ∨ c = '1')
  if bin2.length < MAX_NB_BITS then
    match lines with
    | [] => none
    | l :: ls => read_builtin ls l bin2
  else
    some (binDigitsToInt bin2, [], lines)

/-! ## Abstract syntax (`grammar_sync.py`)

Node kinds carry the children the executor reads (per
`SYNC_AST_CHILDREN_INDEXES`) plus the node's `line`.  The five binary
operator node kinds (`multdivexpr`, `moduloexpr`, `addsubexpr`, `cmpexpr`,
`eqexpr`) all execute through `_execute_binaryoperator` and are merged into
one `binop` kind discriminated by the operator string, exactly as the
executor discriminates.  `token` stands for a bare token child (the
`INT`/`FLOAT`/... type tags of `PRINT`).  The node kinds outside the
embedded fragment (`boolexpr`, `notexpr`, dereference/reference, array and
structure access and their assignment forms) are omitted. -/

inductive Lit where
  | ident (s : String)
  | intlit (n : Int)
  | kw (s : String)
deriving DecidableEq, Repr

inductive Node where
  | atom (line : Nat) (literal : Lit)
  | token (line : Nat) (s : String)
  | affect (line : Nat) (varName : String) (expr : Node)
  | binop (line : Nat) (operator : String) (leftExpr rightExpr : Node)
  | bracketexpr (line : Nat) (expr : Node)
  | call (line : Nat) (functionName : String) (parameters : List Node)
  | ifexpr (line : Nat) (branches : List (Node × Node)) (elseBlock : Option Node)
  | forexpr (line : Nat) (loopVariable : String) (startExpr endExpr blk : Node)
  | whileexpr (line : Nat) (conditionExpr blk : Node)
  | continuerule (line : Nat)
  | breakrule (line : Nat)
  | returnrule (line : Nat) (expr : Node)
  | block (stmts : List Node)

/-- The `value` slot of a yielded step: `None`, a word, the `'CONTINUE'` and
`'BREAK'` strings, or the `('RETURN', v)` tuple. -/
inductive PyVal where
  | vnone
  | vword (w : Int)
  | vcontinue
  | vbreak
  | vret (v : Option Int)
deriving DecidableEq, Repr

/-- One yielded step `(elementary, value, line)`; the source also yields the
column, dropped here. -/
structure Step where
  elementary : Bool
  value : PyVal
  line : Nat
deriving DecidableEq, Repr

/-- How a statement's execution ended: normally, or at a control-signal
yield that an enclosing construct intercepts. -/
inductive Sig where
  | normal
  | brk
  | cont
  | ret (v : Option Int)
deriving DecidableEq, Repr

/-- What a function-body execution records per function
(`functions_infos`). -/
structure FunInfo where
  parameters : List String
  tree : Node
  line : Nat

/-- `functions_infos`: insertion-ordered name-to-info map. -/
abbrev Env := List (String × FunInfo)

def lookupFun (env : Env) (name : String) : Option FunInfo :=
  match env with
  | [] => none
  | p :: r => if p.1 = name then some p.2 else lookupFun r name

/-- Step result of one node execution: the yielded steps, the state after,
and the control signal (`.normal` for every expression node). -/
abbrev ExecOut := List Step × PState × Sig

/-- Forward a sub-execution's steps with the value slot cleared, as in
`yield elementary, None`. -/
def stripVals (steps : List Step) : List Step :=
  steps.map (fun s => { s with value := PyVal.vnone })

/-- The value accumulator pattern `if value is not None: binary_value = value`
folded over the forwarded steps. -/
def capturedValue (init : PyVal) (steps : List Step) : PyVal :=
  steps.foldl (fun acc s => if s.value = PyVal.vnone then acc else s.value) init

/-- The `result` accumulation of `_execute_call`: initial value
`int_to_bin(0)`, overwritten by every non-`None` forwarded value. -/
def callResult (steps : List Step) : PyVal :=
  capturedValue (PyVal.vword (int_to_bin 0 false)) steps

/-- The last value produced among a list of forwarded steps (the claim's
"last value produced by the body's statements"): the last non-`None` step
value, `none` when every step is valueless. -/
def lastProducedValue (steps : List Step) : Option PyVal :=
  ((steps.map (fun s => s.value)).filter (fun v => decide (v ≠ PyVal.vnone))).getLast?

/-- Replace the value of the last step (the signal-carrying yield) by `v`. -/
def rewriteLastValue (steps : List Step) (v : PyVal) : List Step :=
  match steps.getLast? with
  | none => steps
  | some lst => steps.dropLast ++ [{ lst with value := v }]

/-- Loops forward an intercepted `'BREAK'`/`'CONTINUE'` step as
`yield elementary, None`. -/
def rewriteLastNone (steps : List Step) : List Step :=
  rewriteLastValue steps PyVal.vnone

def optWordToVal (v : Option Int) : PyVal :=
  match v with
  | some w => PyVal.vword w
  | none => PyVal.vnone

/-- Use a captured step value as a binary word; any other Python value in
that position would raise a `TypeError` downstream. -/
def pyvalWord (v : PyVal) : Except Err Int :=
  match v with
  | .vword w => .ok w
  | _ => .error .internalTypeError

/-- An element of `binary_parameters` in `_execute_call`: a `PRINT` type tag
or a captured parameter value. -/
inductive BParam where
  | tag (s : String)
  | val (v : PyVal)
deriving DecidableEq, Repr

def bparamAt (bps : List BParam) (i : Nat) : Except Err PyVal :=
  match bps.get? i with
  | some (.val v) => .ok v
  | _ => .error .internalTypeError

def bparamWords (bps : List BParam) : Except Err (List Int) :=
  match bps with
  | [] => .ok []
  | .val v :: r => do
    let w ← pyvalWord v
    let ws ← bparamWords r
    .ok (w :: ws)
  | .tag _ :: _ => .error .internalTypeError

/-- The operator dispatch of `_execute_binaryoperator` on the two captured
operand values.  Integer arithmetic re-encodes with `overflow=True`;
division and modulo are Python's floor variants and raise
`MathDomainError` on a zero divisor; `==`/`!=` compare the raw captured
values.  The float operators are outside the embedding. -/
def binopResult (op : String) (bl br : PyVal) : Except Err Int :=
  if op ∈ (["+", "-", "/", "*", "%", "<=", ">=", "<", ">"] : List String) then do
    let lv := bin_to_int (← pyvalWord bl)
    let rv := bin_to_int (← pyvalWord br)
    if op = "+" then .ok (int_to_bin (lv + rv) true)
    else if op = "-" then .ok (int_to_bin (lv - rv) true)
    else if op = "*" then .ok (int_to_bin (lv * rv) true)
    else if op = "/" then
      if rv = 0 then .error .mathDomain else .ok (int_to_bin (Int.fdiv lv rv) true)
    else if op = "%" then
      if rv = 0 then .error .mathDomain else .ok (int_to_bin (Int.fmod lv rv) true)
    else if op = "<=" then .ok (bool_to_bin (decide (lv ≤ rv)))
    else if op = ">=" then .ok (bool_to_bin (decide (rv ≤ lv)))
    else if op = "<" then .ok (bool_to_bin (decide (lv < rv)))
    else .ok (bool_to_bin (decide (rv < lv)))
  else if op ∈ (["+.", "-.", "/.", "*.", "<=.", ">=.", "<.", ">."] : List String) then
    .error .unmodeledFloat
  else if op = "==" then .ok (bool_to_bin (decide (bl = br)))
  else if op = "!=" then .ok (bool_to_bin (decide (bl ≠ br)))
  else .error .internalTypeError

/-- Declare a local in the current (last) frame, as
`self.local_variables[-1].append(variable)`.  With no frame the statement
could not be executing; the state is returned unchanged there. -/
def pushLocal (st : PState) (v : String) : PState :=
  match st.local_variables.getLast? with
  | none => st
  | some frame =>
    { st with local_variables := st.local_variables.dropLast ++ [frame ++ [v]] }

/-- Append a printed piece to the chosen output channel. -/
def appendOut (st : PState) (toErr : Bool) (s : String) : PState :=
  if toErr then { st with outputErr := st.outputErr ++ s }
  else { st with output := st.output ++ s }

/-- Format one `PRINT`/`PRINTERR` value under the pending type tag (`none`
and `STRING` read a NUL-terminated string from memory; `BOOL` prints
Python's capitalised booleans). -/
def formatValue (fuel : Nat) (st : PState) (w : Int) (typ : Option String) :
    Except Err String :=
  match typ with
  | none => do
    let a ← bin_to_pointer w
    get_string_from_address fuel st a
  | some t =>
    if t = "STRING" then do
      let a ← bin_to_pointer w
      get_string_from_address fuel st a
    else if t = "INT" then .ok (toString (bin_to_int w))
    else if t = "FLOAT" then .error .unmodeledFloat
    else if t = "CHAR" then do
      let c ← bin_to_char w
      .ok (String.mk [c])
    else if t = "BOOL" then do
      let b ← bin_to_bool w
      .ok (if b then "True" else "False")
    else if t = "POINTER" then do
      let p ← bin_to_pointer w
      .ok (toString p)
    else .error .internalTypeError

/-- The formatting loop of `PRINT`/`PRINTERR` over `binary_parameters`: a
type tag while one is already pending raises
`InvalidTypeParameterInFunctionError`; a value is formatted under the
pending tag (default `STRING`) and appended to the channel, clearing the
tag. -/
def printParams (fuel : Nat) (toErr : Bool) (bps : List BParam)
    (typ : Option String) (st : PState) : Except Err PState :=
  match bps with
  | [] => .ok st
  | .tag s :: rest =>
    match typ with
    | some _ => .error .invalidTypeParameter
    | none => printParams fuel toErr rest (some s) st
  | .val v :: rest => do
    let w ← pyvalWord v
    let piece ← formatValue fuel st w typ
    printParams fuel toErr rest none (appendOut st toErr piece)

/-- The initialisation loop of `MALLOC` with extra arguments: write each
extra word at successive addresses, one elementary step each. -/
def mallocInit (st : PState) (address : Int) (extras : List Int) (i : Nat)
    (line : Nat) : Except Err (List Step × PState) :=
  match extras with
  | [] => .ok ([], st)
  | v :: rest => do
    let st1 ← set_memory st (address + (i : Nat)) v
    let (ss, st2) ← mallocInit st1 address rest (i + 1) line
    .ok (Step.mk true PyVal.vnone line :: ss, st2)

/-- The parameter-write loop of `execute_function`: words go to successive
addresses starting at the first parameter's. -/
def writeArgsFrom (st : PState) (a0 : Int) (args : List Int) (i : Nat) :
    Except Err PState :=
  match args with
  | [] => .ok st
  | v :: rest => do
    let st1 ← set_memory st (a0 + (i : Nat)) v
    writeArgsFrom st1 a0 rest (i + 1)

/-- Bind the arguments into the freshly pushed frame
(`execute_function`, parameter-write section). -/
def writeArgs (st : PState) (params : List String) (args : List Int) :
    Except Err PState :=
  match params with
  | [] => .ok st
  | p0 :: _ => do
    let a0 ← get_variable_address st p0
    writeArgsFrom st a0 args 0

/-- Built-in names with fixed arities, per the checks in `_execute_call`. -/
def zeroArgBuiltins : List String := ["READ", "RAND", "FLUSH", "FLUSHERR"]

def oneArgBuiltins : List String :=
  ["IABS", "FABS", "COS", "SIN", "TAN", "SQRT", "EXP", "LN", "SH", "CH", "TH",
   "CEIL", "FLOOR", "ROUND", "MALLOC_STRUCT", "FREE", "SRAND", "I2F", "F2I",
   "S2I", "S2F", "V2B", "ELEMENTARY_OPERATIONS"]

/-- Built-ins whose behaviour (floats, randomness, structures, channel input,
string casts, the operation-counter query) is outside this embedding. -/
def unmodeledBuiltins : List String :=
  ["FABS", "COS", "SIN", "TAN", "SQRT", "EXP", "LN", "SH", "CH", "TH", "CEIL",
   "FLOOR", "ROUND", "POW", "I2F", "F2I", "I2S", "F2S", "S2I", "S2F", "READ",
   "RAND", "SRAND", "ELEMENTARY_OPERATIONS"]

def printTags : List String := ["INT", "FLOAT", "CHAR", "BOOL", "STRING", "POINTER"]

/-! ## The tree-walking engine (`execute_node`, `execute_function`)

Every function consumes one unit of fuel per call, so each is structurally
recursive in its fuel argument and evaluates inside the kernel. -/

mutual

/-- `execute_node`: dispatch on the node kind; each branch is the
corresponding closure of the source. -/
def execNode (fuel : Nat) (env : Env) (node : Node) (st : PState) :
    Except Err ExecOut :=
  match fuel with
  | 0 => .error .outOfFuel
  | fuel + 1 =>
    match node with
    | .atom line lit =>
      match lit with
      | .ident name => do
        let address ← get_variable_address st name
        let v ← get_memory st address
        .ok ([Step.mk false (PyVal.vword v) line], st, Sig.normal)
      | .intlit n => .ok ([Step.mk false (PyVal.vword (int_to_bin n false)) line], st, Sig.normal)
      | .kw s =>
        if s ∈ (["NULL", "TRUE", "FALSE"] : List String) then
          .ok ([Step.mk false (PyVal.vword (literal_to_bin s)) line], st, Sig.normal)
        else .error .unmodeledLiteral
    | .token _ _ => .error .internalTypeError
    | .affect line varName expr => do
      let st1 ←
        if st.global_variables.contains varName ∨
            (st.local_variables.getLastD []).contains varName then .ok st
        else
          let st1 := pushLocal st varName
          if check_memory_limit_exceeded st1 none then .ok st1
          else .error .memoryExceeded
      let address ← get_variable_address st1 varName
      let (es, st2, _) ← execNode fuel env expr st1
      let v ← pyvalWord (capturedValue PyVal.vnone es)
      let st3 ← set_memory st2 address v
      .ok (stripVals es ++ [Step.mk true PyVal.vnone line], st3, Sig.normal)
    | .binop line op l r => do
      let (ls, st1, _) ← execNode fuel env l st
      let (rs, st2, _) ← execNode fuel env r st1
      let result ← binopResult op (capturedValue PyVal.vnone ls) (capturedValue PyVal.vnone rs)
      .ok (stripVals ls ++ stripVals rs ++ [Step.mk true (PyVal.vword result) line], st2, Sig.normal)
    | .bracketexpr _ e => execNode fuel env e st
    | .call line fname ps => execCallNode fuel env line fname ps st
    | .ifexpr line branches elseB => execIf fuel env line branches elseB st
    | .forexpr line v startE endE blk => do
      let st0 :=
        if st.global_variables.contains v ∨
            (st.local_variables.getLastD []).contains v then st
        else pushLocal st v
      let address ← get_variable_address st0 v
      let (ss, st1, _) ← execNode fuel env startE st0
      let sv := bin_to_int (← pyvalWord (capturedValue PyVal.vnone ss))
      let (es, st2, _) ← execNode fuel env endE st1
      let ev := bin_to_int (← pyvalWord (capturedValue PyVal.vnone es))
      let st3 ← set_memory st2 address (int_to_bin sv false)
      let (ls, st4, sig) ← execForLoop fuel env line address ev blk st3
      .ok (stripVals ss ++ stripVals es ++
            [Step.mk true PyVal.vnone line, Step.mk true PyVal.vnone line] ++ ls,
          st4, sig)
    | .whileexpr line cond blk => execWhileLoop fuel env line cond blk st
    | .continuerule line => .ok ([Step.mk false PyVal.vcontinue line], st, Sig.cont)
    | .breakrule line => .ok ([Step.mk false PyVal.vbreak line], st, Sig.brk)
    | .returnrule line expr => do
      let (es, st1, _) ← execNode fuel env expr st
      let rv :=
        match capturedValue PyVal.vnone es with
        | .vword w => some w
        | _ => none
      .ok (stripVals es ++ [Step.mk false (PyVal.vret rv) line], st1, Sig.ret rv)
    | .block stmts => execStmts fuel env stmts st
termination_by structural fuel

/-- `_execute_block`: statements in order, all steps forwarded verbatim; a
control signal stops the block (the enclosing loop or call boundary
abandons the rest, see the header note). -/
def execStmts (fuel : Nat) (env : Env) (stmts : List Node) (st : PState) :
    Except Err ExecOut :=
  match fuel with
  | 0 => .error .outOfFuel
  | fuel + 1 =>
    match stmts with
    | [] => .ok ([], st, Sig.normal)
    | s :: rest => do
      let (ss, st1, sig) ← execNode fuel env s st
      match sig with
      | .normal => do
        let (rs, st2, sig2) ← execStmts fuel env rest st1
        .ok (ss ++ rs, st2, sig2)
      | _ => .ok (ss, st1, sig)
termination_by structural fuel

/-- `_execute_ifexpr`: conditions in order, each followed by one elementary
condition-evaluated step at the `IF` node's line; the first true condition's
block runs with steps and signal forwarded; otherwise the `ELSE` block. -/
def execIf (fuel : Nat) (env : Env) (line : Nat) (branches : List (Node × Node))
    (elseB : Option Node) (st : PState) : Except Err ExecOut :=
  match fuel with
  | 0 => .error .outOfFuel
  | fuel + 1 =>
    match branches with
    | [] =>
      match elseB with
      | some blk => execNode fuel env blk st
      | none => .ok ([], st, Sig.normal)
    | (cond, blk) :: rest => do
      let (cs, st1, _) ← execNode fuel env cond st
      let pre := stripVals cs ++ [Step.mk true PyVal.vnone line]
      let b ← bin_to_bool (← pyvalWord (capturedValue PyVal.vnone cs))
      if b then do
        let (bs, st2, sig) ← execNode fuel env blk st1
        .ok (pre ++ bs, st2, sig)
      else do
        let (ts, st2, sig) ← execIf fuel env line rest elseB st1
        .ok (pre ++ ts, st2, sig)
termination_by structural fuel

/-- The iteration loop of `_execute_forexpr`: while the loop variable's
decoded value is below the end bound, run the block (a `'CONTINUE'` signal
falls through to the increment, a `'BREAK'` signal ends the loop normally,
a `RETURN` propagates), then increment the variable (two elementary steps)
and re-test the guard (one elementary step, yielded before the test). -/
def execForLoop (fuel : Nat) (env : Env) (line : Nat) (address endv : Int)
    (blk : Node) (st : PState) : Except Err ExecOut :=
  match fuel with
  | 0 => .error .outOfFuel
  | fuel + 1 => do
    let cur ← get_memory st address
    if bin_to_int cur < endv then do
      let (bs, st1, sig) ← execNode fuel env blk st
      match sig with
      | .brk => .ok (rewriteLastNone bs, st1, Sig.normal)
      | .ret v => .ok (bs, st1, Sig.ret v)
      | _ => do
        let bs2 := match sig with | .cont => rewriteLastNone bs | _ => bs
        let cur2 ← get_memory st1 address
        let st2 ← set_memory st1 address (int_to_bin (bin_to_int cur2 + 1) false)
        let (ls, st3, sig2) ← execForLoop fuel env line address endv blk st2
        .ok (bs2 ++
              [Step.mk true PyVal.vnone line, Step.mk true PyVal.vnone line,
               Step.mk true PyVal.vnone line] ++ ls,
            st3, sig2)
    else .ok ([], st, Sig.normal)
termination_by structural fuel

/-- `_execute_whileexpr`: re-evaluate the condition (only its elementary
steps are forwarded, value-stripped), one elementary condition-evaluated
step, then the block when the condition holds, with the same signal
handling as `FOR`. -/
def execWhileLoop (fuel : Nat) (env : Env) (line : Nat) (cond blk : Node)
    (st : PState) : Except Err ExecOut :=
  match fuel with
  | 0 => .error .outOfFuel
  | fuel + 1 => do
    let (cs, st1, _) ← execNode fuel env cond st
    let pre := stripVals (cs.filter (fun s => s.elementary)) ++
      [Step.mk true PyVal.vnone line]
    let b ← bin_to_bool (← pyvalWord (capturedValue PyVal.vnone cs))
    if b then do
      let (bs, st2, sig) ← execNode fuel env blk st1
      match sig with
      | .brk => .ok (pre ++ rewriteLastNone bs, st2, Sig.normal)
      | .ret v => .ok (pre ++ bs, st2, Sig.ret v)
      | _ => do
        let bs2 := match sig with | .cont => rewriteLastNone bs | _ => bs
        let (ls, st3, sig2) ← execWhileLoop fuel env line cond blk st2
        .ok (pre ++ bs2 ++ ls, st3, sig2)
    else .ok (pre, st1, Sig.normal)
termination_by structural fuel

/-- The parameter-evaluation loop of `_execute_call`: a parameter whose
second component is a `PRINT` type tag is recorded unevaluated; every other
parameter's steps are forwarded value-stripped and its captured value
recorded. -/
def evalArgs (fuel : Nat) (env : Env) (ps : List Node) (st : PState) :
    Except Err (List Step × PState × List BParam) :=
  match fuel with
  | 0 => .error .outOfFuel
  | fuel + 1 =>
    match ps with
    | [] => .ok ([], st, [])
    | p :: rest =>
      match p with
      | .token _ s =>
        if s ∈ printTags then do
          let (ss, st1, bps) ← evalArgs fuel env rest st
          .ok (ss, st1, BParam.tag s :: bps)
        else .error .internalTypeError
      | _ => do
        let (es, st1, _) ← execNode fuel env p st
        let v := capturedValue PyVal.vnone es
        let (ss, st2, bps) ← evalArgs fuel env rest st1
        .ok (stripVals es ++ ss, st2, BParam.val v :: bps)
termination_by structural fuel

/-- `_execute_call`: arity check (with the undeclared-function check in the
fall-through branch), parameter evaluation, dispatch on the function name
(default result `int_to_bin(0)`), and the single final elementary step
carrying the result. -/
def execCallNode (fuel : Nat) (env : Env) (line : Nat) (fname : String)
    (ps : List Node) (st : PState) : Except Err ExecOut :=
  match fuel with
  | 0 => .error .outOfFuel
  | fuel + 1 => do
    let n := ps.length
    let arityOk ←
      if fname ∈ zeroArgBuiltins then .ok (decide (n = 0))
      else if fname ∈ oneArgBuiltins then .ok (decide (n = 1))
      else if fname = "POW" then .ok (decide (n = 2))
      else if fname ∈ (["I2S", "F2S"] : List String) then .ok (decide (n = 3))
      else if fname ∈ (["PRINT", "PRINTERR"] : List String) then .ok true
      else if fname = "MALLOC" then .ok (decide (1 ≤ n))
      else
        match lookupFun env fname with
        | none => .error .undeclaredFunction
        | some fi => .ok (decide (n = fi.parameters.length))
    if ¬ arityOk then .error .incorrectNumberOfParameters
    else if fname = "MALLOC_STRUCT" then .error .unmodeledBuiltin
    else do
      let (argSteps, st1, bps) ← evalArgs fuel env ps st
      if fname ∈ unmodeledBuiltins then .error .unmodeledBuiltin
      else if fname = "IABS" then do
        let v := bin_to_int (← pyvalWord (← bparamAt bps 0))
        .ok (argSteps ++
              [Step.mk true (PyVal.vword (int_to_bin (if v < 0 then -v else v) false)) line],
            st1, Sig.normal)
      else if fname = "MALLOC" then do
        let size := bin_to_int (← pyvalWord (← bparamAt bps 0))
        let (address, st2) ← malloc st1 size
        let extras ← bparamWords (bps.drop 1)
        let (isteps, st3) ← mallocInit st2 address extras 0 line
        .ok (argSteps ++ isteps ++
              [Step.mk true (PyVal.vword (pointer_to_bin address)) line],
            st3, Sig.normal)
      else if fname = "FREE" then do
        let p ← bin_to_pointer (← pyvalWord (← bparamAt bps 0))
        let st2 ← free st1 p
        .ok (argSteps ++ [Step.mk true (PyVal.vword (int_to_bin 0 false)) line],
            st2, Sig.normal)
      else if fname ∈ (["PRINT", "PRINTERR"] : List String) then do
        let st2 ← printParams fuel (fname = "PRINTERR") bps none st1
        .ok (argSteps ++ [Step.mk true (PyVal.vword (int_to_bin 0 false)) line],
            st2, Sig.normal)
      else if fname ∈ (["FLUSH", "FLUSHERR"] : List String) then
        .ok (argSteps ++ [Step.mk true (PyVal.vword (int_to_bin 0 false)) line],
            st1, Sig.normal)
      else if fname = "V2B" then do
        let w ← pyvalWord (← bparamAt bps 0)
        .ok (argSteps ++ [Step.mk true (PyVal.vword (bool_to_bin (decide (w ≠ 0)))) line],
            st1, Sig.normal)
      else do
        let args ← bparamWords bps
        let (fsteps, st2, result) ← execUserCall fuel env fname args st1
        .ok (argSteps ++ fsteps ++ [Step.mk true result line], st2, Sig.normal)
termination_by structural fuel

/-- The user-defined-function branch of `_execute_call`: run the function,
forward its steps value-stripped, and accumulate the call's `result` from
the forwarded values (initially `int_to_bin(0)`). -/
def execUserCall (fuel : Nat) (env : Env) (fname : String) (args : List Int)
    (st : PState) : Except Err (List Step × PState × PyVal) :=
  match fuel with
  | 0 => .error .outOfFuel
  | fuel + 1 => do
    let (fsteps, st2, _) ← execFunction fuel env fname args st
    .ok (stripVals fsteps, st2, callResult fsteps)
termination_by structural fuel

/-- `execute_function`: push a frame of the parameters, check the stack
room, bind the arguments, run the body forwarding every step, intercept a
`('RETURN', v)` value by re-yielding the step with the plain value and
stopping, and pop the frame.  The returned `Sig` is the body's: `.normal`
means the body completed without executing a `RETURN`. -/
def execFunction (fuel : Nat) (env : Env) (fname : String) (args : List Int)
    (st : PState) : Except Err (List Step × PState × Sig) :=
  match fuel with
  | 0 => .error .outOfFuel
  | fuel + 1 =>
    match lookupFun env fname with
    | none => .error .undeclaredFunction
    | some fi => do
      let st1 := { st with local_variables := st.local_variables ++ [fi.parameters] }
      if ¬ check_memory_limit_exceeded st1 none then .error .memoryExceeded
      else do
        let st2 ← writeArgs st1 fi.parameters args
        let (bsteps, st3, sig) ← execNode fuel env fi.tree st2
        let st4 := { st3 with local_variables := st3.local_variables.dropLast }
        match sig with
        | .ret v => .ok (rewriteLastValue bsteps (optWordToVal v), st4, sig)
        | _ => .ok (bsteps, st4, sig)
termination_by structural fuel

end

/-! ## Load-time validation (`SynCProgram.__init__`)

The constructor runs, in source order: `_read_structs_and_functions`,
`_search_for_static_strings`, `_search_int_char_float_errors`,
`_declare_globals`, `_check_main_function`.  Structure declarations and
string literals are outside the embedded fragment: programs here declare
functions and integer/keyword globals only, so the static-string pass
leaves `read_write_stack_limit` at its initial value `1` and is a no-op. -/

/-- A global-variable initialiser (`globalaffect`): the literal is an
integer or one of the `TRUE`/`FALSE`/`NULL` keywords in the embedded
fragment. -/
inductive GLit where
  | gint (n : Int)
  | gkw (s : String)
deriving DecidableEq, Repr

structure GlobalAffect where
  name : String
  value : GLit
  line : Nat
deriving DecidableEq, Repr

/-- A function declaration (`fundecl`): name, parameters, body block. -/
structure FunDecl where
  name : String
  parameters : List String
  body : Node
  line : Nat

/-- A parsed program: the optional globals block and the function
declarations, in source order. -/
structure ProgTree where
  globalsDecl : List GlobalAffect
  functions : List FunDecl

/-- Duplicate check of `_read_function`: no parameter may repeat. -/
def hasDuplicate (l : List String) : Bool :=
  match l with
  | [] => false
  | x :: r => r.contains x || hasDuplicate r

/-- `_read_structs_and_functions`, restricted to function declarations:
reject a redeclared function name and duplicated parameter names, recording
each function's parameters, body and position. -/
def readFuns (decls : List FunDecl) (acc : Env) : Except Err Env :=
  match decls with
  | [] => .ok acc
  | f :: rest =>
    if (lookupFun acc f.name).isSome then .error .sameNameFunction
    else if hasDuplicate f.parameters then .error .sameParametersName
    else readFuns rest (acc ++ [(f.name, FunInfo.mk f.parameters f.body f.line)])

/-- The integer-literal check of `_search_int_char_float_errors` on one
node, recursively (`j = .inr l` walks a child list). -/
def walkInts (fuel : Nat) (j : Node ⊕ List Node) : Except Err Unit :=
  match fuel with
  | 0 => .error .outOfFuel
  | fuel + 1 =>
    match j with
    | .inl n =>
      match n with
      | .atom _ lit =>
        match lit with
        | .intlit v =>
          if -(2 ^ 31) ≤ v ∧ v < 2 ^ 31 then .ok () else .error .nonValidInteger
        | _ => .ok ()
      | .token _ _ => .ok ()
      | .affect _ _ e => walkInts fuel (.inr [e])
      | .binop _ _ l r => walkInts fuel (.inr [l, r])
      | .bracketexpr _ e => walkInts fuel (.inr [e])
      | .call _ _ ps => walkInts fuel (.inr ps)
      | .ifexpr _ branches elseB =>
        walkInts fuel (.inr (branches.map (fun b => b.1) ++ branches.map (fun b => b.2) ++ elseB.toList))
      | .forexpr _ _ s e b => walkInts fuel (.inr [s, e, b])
      | .whileexpr _ c b => walkInts fuel (.inr [c, b])
      | .continuerule _ => .ok ()
      | .breakrule _ => .ok ()
      | .returnrule _ e => walkInts fuel (.inr [e])
      | .block stmts => walkInts fuel (.inr stmts)
    | .inr [] => .ok ()
    | .inr (n :: rest) => do
      walkInts fuel (.inl n)
      walkInts fuel (.inr rest)

/-- `_search_int_char_float_errors` over the whole tree: every global
initialiser and every function body. -/
def checkLiterals (fuel : Nat) (prog : ProgTree) : Except Err Unit := do
  let rec checkGlobals : List GlobalAffect → Except Err Unit
    | [] => .ok ()
    | g :: rest =>
      match g.value with
      | .gint v =>
        if -(2 ^ 31) ≤ v ∧ v < 2 ^ 31 then checkGlobals rest else .error .nonValidInteger
      | .gkw _ => checkGlobals rest
  checkGlobals prog.globalsDecl
  walkInts fuel (.inr (prog.functions.map (fun f => f.body)))

/-- The word value of one global initialiser
(`_declare_globals`, value section). -/
def globalValue (v : GLit) : Int :=
  match v with
  | .gint n => int_to_bin n false
  | .gkw s => literal_to_bin s

/-- `_declare_globals`, per initialiser: reject a repeated global name, then
a name colliding with any function's parameter, then append the name and
write the encoded literal at the global's address. -/
def declareGlobals (env : Env) (gs : List GlobalAffect) (st : PState) :
    Except Err PState :=
  match gs with
  | [] => .ok st
  | g :: rest =>
    if st.global_variables.contains g.name then .error .sameGlobalVariableName
    else if env.any (fun f => f.2.parameters.contains g.name) then
      .error .globalAndParameterName
    else do
      let st1 := { st with global_variables := st.global_variables ++ [g.name] }
      let address ← get_variable_address st1 g.name
      let st2 ← set_memory st1 address (globalValue g.value)
      declareGlobals env rest st2

/-- `_check_main_function`: `main` must exist and take no parameter. -/
def checkMain (env : Env) : Except Err Unit :=
  match lookupFun env "main" with
  | none => .error .noMainFunction
  | some fi =>
    if fi.parameters.length ≠ 0 then .error .mainFunctionWithParameters
    else .ok ()

/-- The initial execution state of `SynCProgram.__init__`: empty memory
dictionary, `read_write_stack_limit = 1`, empty heap, no globals, no
frames. -/
def initState : PState :=
  PState.mk [] 1 [] [] [] "" ""

/-- `SynCProgram.__init__`, in source order: collect functions, validate
literals, declare the globals, and only then require a `main` function. -/
def initProgram (fuel : Nat) (prog : ProgTree) : Except Err (Env × PState) := do
  let env ← readFuns prog.functions []
  checkLiterals fuel prog
  let st ← declareGlobals env prog.globalsDecl initState
  checkMain env
  .ok (env, st)

/-- Load a program and run its `main` function
(`main_function_iterator` driving `execute_function('main')`). -/
def runProgram (fuel : Nat) (prog : ProgTree) :
    Except Err (List Step × PState × Sig) := do
  let (env, st) ← initProgram fuel prog
  execFunction fuel env "main" [] st

deriving instance DecidableEq for Except

/-! ## Observation helpers and concrete inputs for the claims -/

/-- The final state of a successful run. -/
def finalStateOf (r : Except Err (List Step × PState × Sig)) : Option PState :=
  r.toOption.map (fun t => t.2.1)

/-- The accumulated standard output of a successful run. -/
def outputOf (r : Except Err (List Step × PState × Sig)) : Option String :=
  r.toOption.map (fun t => t.2.1.output)

/-- The step trace of a successful run (empty on error). -/
def traceOf (r : Except Err (List Step × PState × Sig)) : List Step :=
  (r.toOption.map (fun t => t.1)).getD []

/-- The error of a failed load, if any. -/
def initErrOf (fuel : Nat) (prog : ProgTree) : Option Err :=
  match initProgram fuel prog with
  | .error e => some e
  | .ok _ => none

/-- The elementary-operation count of a step list: exactly the yields that
`main_function_iterator` counts. -/
def elemCount (tr : List Step) : Nat :=
  (tr.filter (fun s => s.elementary)).length

/-- True when the elementary-operation count strictly increases across every
step whose position metadata is `ln` (used with the loop node's line, which
tags exactly the loop's own initialisation, guard-test and increment
steps). -/
def countIncreasesAtLine (tr : List Step) (ln : Nat) : Bool :=
  (List.range tr.length).all (fun i =>
    !((tr.getD i (Step.mk false PyVal.vnone 0)).line == ln) ||
      decide (elemCount (tr.take i) < elemCount (tr.take (i + 1))))

/-- The claim's stack top: the address of the last currently occupied stack
word, read-only limit plus global count plus all live locals, minus one
(addresses start at the read-only limit). -/
def lastOccupiedStackWord (st : PState) : Int :=
  st.read_write_stack_limit + (st.global_variables.length : Nat) +
    ((st.local_variables.map List.length).sum : Nat) - 1

/-- The per-block part of the claimed allocator invariant: every address of
the block lies strictly above the last occupied stack word and strictly
below the memory size. -/
def blockRespectsBounds (st : PState) (b : Int × Int) : Bool :=
  decide (lastOccupiedStackWord st < b.1) && decide (b.1 + b.2 ≤ MEMORY_SIZE)

def heapRespectsBounds (st : PState) : Bool :=
  st.memory_heap.all (blockRespectsBounds st)

/-- The free gap directly above each heap block, scanning the descending
block list: the gap's bottom address (the word just above the block) and
its width in words, measured against the previous block's start (the memory
size for the first block). -/
def gapsFrom (prev : Int) (hs : List (Int × Int)) : List (Int × Int) :=
  match hs with
  | [] => []
  | (a, sz) :: rest => (a + sz, prev - (a + sz)) :: gapsFrom a rest

/-- The allocation placement in the words of claim C3 (spec side): scan the
gaps from the highest address downward, place the block at the bottom of the
first gap holding at least `size` free words, and only otherwise place it
immediately below the lowest block. -/
def mallocClaimSpec (hs : List (Int × Int)) (size : Int) : Int :=
  match (gapsFrom MEMORY_SIZE hs).find? (fun g => decide (size ≤ g.2)) with
  | some g => g.1
  | none => (hs.getLastD (MEMORY_SIZE, 0)).1 - size

/-- The amended placement rule (spec side): identical to `mallocClaimSpec`
except that a gap qualifies only with strictly more than `size` free
words. -/
def mallocAmendedSpec (hs : List (Int × Int)) (size : Int) : Int :=
  match (gapsFrom MEMORY_SIZE hs).find? (fun g => decide (size < g.2)) with
  | some g => g.1
  | none => (hs.getLastD (MEMORY_SIZE, 0)).1 - size

/-- Generalisation of `mallocAmendedSpec` to a running `previous_address`,
matching `mallocScanAux`'s accumulator. -/
def mallocAmendedSpecFrom (prev : Int) (hs : List (Int × Int)) (size : Int) : Int :=
  match (gapsFrom prev hs).find? (fun g => decide (size < g.2)) with
  | some g => g.1
  | none => (hs.getLastD (prev, 0)).1 - size

/-- Scenario C (claim C8), with each construct tagged by a distinct line id:
the `FOR` node is line `2`. -/
def progC8 : ProgTree :=
  ProgTree.mk []
    [FunDecl.mk "main" []
      (Node.block
        [Node.forexpr 2 "i" (Node.atom 21 (Lit.intlit 0)) (Node.atom 22 (Lit.intlit 5))
          (Node.block
            [Node.ifexpr 3
               [(Node.binop 31 "==" (Node.atom 32 (Lit.ident "i")) (Node.atom 33 (Lit.intlit 3)),
                 Node.block [Node.breakrule 4])] none,
             Node.call 6 "PRINT" [Node.token 60 "INT", Node.atom 61 (Lit.ident "i")]])])
      1]

/-- Claim C1's probe program: `g` returns `5`; `f`'s body is the bare call
`g()` and completes without a `RETURN`; `main` prints `f()` as an
integer. -/
def progC1 : ProgTree :=
  ProgTree.mk []
    [FunDecl.mk "g" [] (Node.block [Node.returnrule 2 (Node.atom 21 (Lit.intlit 5))]) 1,
     FunDecl.mk "f" [] (Node.block [Node.call 4 "g" []]) 3,
     FunDecl.mk "main" []
       (Node.block [Node.call 6 "PRINT" [Node.token 60 "INT", Node.call 61 "f" []]]) 5]

/-- Claim C2's probe program: two globals, and `main` allocates `2^24 - 2`
words, which the allocator places at address `2` — on top of the second
global. -/
def progC2 : ProgTree :=
  ProgTree.mk
    [GlobalAffect.mk "x" (GLit.gint 5) 1, GlobalAffect.mk "y" (GLit.gint 6) 2]
    [FunDecl.mk "main" []
       (Node.block [Node.call 4 "MALLOC" [Node.atom 41 (Lit.intlit 16777214)]]) 3]

/-- Claim C7's probe program: a duplicated global name and no `main`
function. -/
def progC7 : ProgTree :=
  ProgTree.mk
    [GlobalAffect.mk "x" (GLit.gint 1) 1, GlobalAffect.mk "x" (GLit.gint 2) 2]
    [FunDecl.mk "f" [] (Node.block []) 3]

/-- The value of the call expression `f()` of `progC1`, evaluated in the
loaded program's state with `main`'s empty frame live (the state in which
`PRINT`'s argument is evaluated). -/
def c1CallValue : Option PyVal :=
  match initProgram 100 progC1 with
  | .ok (env, st0) =>
    match execUserCall 100 env "f" [] { st0 with local_variables := [[]] } with
    | .ok (_, _, r) => some r
    | .error _ => none
  | .error _ => none

/-- A freshly loaded state with one empty live frame, as after entering a
parameterless `main` of a program with no globals and no string literals. -/
def freshFrameState : PState :=
  PState.mk [] 1 [] [] [[]] "" ""

/-- Claim C3's probe: three one-word allocations, freeing the middle one
(leaving a one-word gap at `2^24 - 2`), then one more one-word allocation.
Returns the last allocation's address, the heap before it, and the heap
after it. -/
def c3Chain : Except Err (Int × List (Int × Int) × List (Int × Int)) := do
  let (_, s1) ← malloc freshFrameState 1
  let (_, s2) ← malloc s1 1
  let (_, s3) ← malloc s2 1
  let s4 ← free s3 16777214
  let (a5, s5) ← malloc s4 1
  .ok (a5, s4.memory_heap, s5.memory_heap)

/-! ## Helper lemmas -/

/-- The fold capturing every non-`None` step value computes the last value
produced, keeping its seed when no step produced one. -/
theorem capturedValue_eq_lastProduced (steps : List Step) (init : PyVal) :
    capturedValue init steps = (lastProducedValue steps).getD init := by
  induction steps generalizing init with
  | nil => rfl
  | cons s rest ih =>
    have hstep : capturedValue init (s :: rest) =
        capturedValue (if s.value = PyVal.vnone then init else s.value) rest := by
      simp [capturedValue, List.foldl]
    by_cases h : s.value = PyVal.vnone
    · rw [hstep, if_pos h, ih]
      have hl : lastProducedValue (s :: rest) = lastProducedValue rest := by
        simp [lastProducedValue, h]
      rw [hl]
    · rw [hstep, if_neg h, ih]
      have hl : lastProducedValue (s :: rest) =
          some ((lastProducedValue rest).getD s.value) := by
        simp only [lastProducedValue, List.map_cons, List.filter_cons]
        rw [if_pos (by simp [h]), List.getLast?_cons]
      rw [hl]
      simp

/-- Dictionary read after a dictionary write. -/
theorem memGet_memSet (m : List (Int × Int)) (a v b : Int) :
    memGet (memSet m a v) b = if b = a then v else memGet m b := by
  induction m with
  | nil =>
    simp only [memSet, memGet]
    by_cases h : a = b
    · subst h; simp
    · rw [if_neg h, if_neg (fun hb => h hb.symm)]
  | cons p r ih =>
    simp only [memSet]
    by_cases hp : p.1 = a
    · simp only [if_pos hp, memGet]
      by_cases hb : a = b
      · subst hb; simp
      · rw [if_neg hb, if_neg (fun h => hb h.symm)]
        simp [memGet, hp, hb]
    · simp only [if_neg hp, memGet]
      by_cases hb : p.1 = b
      · have : ¬ b = a := fun h => hp (hb.trans h)
        rw [if_pos hb, if_neg this, if_pos hb]
      · rw [if_neg hb, if_neg hb, ih]

/-- A history of dictionary writes reads back as the fold selecting the last
write to the queried address. -/
theorem memGet_foldl_writes (ws : List (Int × Int)) (m : List (Int × Int)) (a : Int) :
    memGet (ws.foldl (fun acc w => memSet acc w.1 w.2) m) a =
      ws.foldl (fun acc w => if w.1 = a then w.2 else acc) (memGet m a) := by
  induction ws generalizing m with
  | nil => rfl
  | cons w rest ih =>
    simp only [List.foldl]
    rw [ih]
    congr 1
    rw [memGet_memSet]
    by_cases h : w.1 = a
    · rw [if_pos h, if_pos h.symm]
    · rw [if_neg h, if_neg (fun hb => h hb.symm)]

/-- The memory holding exactly a history of writes
(`defaultdict(int)` updated through `_set_memory`). -/
def memFromWrites (ws : List (Int × Int)) : List (Int × Int) :=
  ws.foldl (fun acc w => memSet acc w.1 w.2) []

/-- The last value written to `a` by a write history, `0` when `a` was never
written. -/
def lastWriteOr0 (ws : List (Int × Int)) (a : Int) : Int :=
  ws.foldl (fun acc w => if w.1 = a then w.2 else acc) 0

/-! ## The claims -/

/-- Claim C9 (confirmed).  For every 32-bit word `w` in `[0, 2^32)`,
re-encoding the signed integer decoded from `w` (overflow flag off) yields
`w` back: `int_to_bin (bin_to_int w) false = w`. -/
theorem c9_int_word_roundtrip (w : Nat) (h : w < 2 ^ 32) :
    int_to_bin (bin_to_int (w : Int)) false = (w : Int) := by
  unfold bin_to_int int_to_bin
  simp only [INT_NB_BITS, MAX_NB_BITS, Bool.false_eq_true, if_false]
  split_ifs <;> omega

/-- Witness for C9 at the word `2^31` (decoded value `-2^31`). -/
theorem c9_witness : int_to_bin (bin_to_int ((2147483648 : Nat) : Int)) false =
    ((2147483648 : Nat) : Int) :=
  c9_int_word_roundtrip 2147483648 (by norm_num)

/-- Counterexample to claim C6 as stated: decoding the word `128` as a
character does not fail — the source's bound is `x <= 2**CHAR_NB_BITS`, so
`128` decodes to the character of ordinal `128`. -/
theorem c6_counterexample :
    bin_to_char 128 = Except.ok (Char.ofNat 128) := by
  decide

/-- Claim C6 (corrected).  Decoding a word as a character succeeds with the
character of that ordinal for every word `w ≤ 128`, and fails with the
invalid-character-encoding error exactly for `w > 128` (the claim placed
the boundary between `127` and `128`). -/
theorem c6_amended_char_decode (w : Int) (hw : 0 ≤ w) :
    (w ≤ 128 → bin_to_char w = Except.ok (Char.ofNat w.toNat)) ∧
      (128 < w → bin_to_char w = Except.error Err.wrongCharacterCode) := by
  unfold bin_to_char
  simp only [CHAR_NB_BITS]
  constructor
  · intro h
    rw [if_pos (by norm_num; omega)]
  · intro h
    rw [if_neg (by norm_num; omega)]

/-- Witness for C6: the two regimes at `w = 100` and `w = 200`. -/
theorem c6_witness :
    bin_to_char 100 = Except.ok (Char.ofNat 100) ∧
      bin_to_char 200 = Except.error Err.wrongCharacterCode :=
  ⟨(c6_amended_char_decode 100 (by norm_num)).1 (by norm_num),
   (c6_amended_char_decode 200 (by norm_num)).2 (by norm_num)⟩

/-- Claim C5 (code bug).  With 33 binary digits already buffered, `READ`
drains and decodes all 33 of them: it returns `2^33 - 1` (not a 32-bit
word) and leaves nothing for later `READ` calls, where the claim (and the
function's own comment, "reads 32 bits") demands the word `2^32 - 1` with
one digit left over. -/
theorem c5_read_drains_buffer_bug :
    read_builtin [] (List.replicate 33 '1') [] = some (8589934591, [], []) ∧
      ¬ ((8589934591 : Int) < 2 ^ 32) := by
  constructor
  · decide
  · norm_num

/-- Claim C4 (confirmed).  `_malloc` with a non-positive size fails with the
malloc-size error before touching any state; with a positive size whose
scanned placement fails the stack-room check it returns the NULL word `0`
and the unchanged state, raising nothing and inserting nothing. -/
theorem c4_malloc_error_and_null (st : PState) (size : Int) :
    (size ≤ 0 → malloc st size = Except.error Err.mallocNegativeSize) ∧
      (1 ≤ size →
        check_memory_limit_exceeded st (some (mallocScan st.memory_heap size).1) = false →
        malloc st size = Except.ok (0, st)) := by
  constructor
  · intro h
    simp [malloc, h]
  · intro h1 h2
    have hns : ¬ size ≤ 0 := by omega
    simp only [malloc, if_neg hns, h2]
    norm_num
    decide

/-- Witness for C4: a negative request errors; a one-word request against a
full-height stack returns NULL with the state unchanged. -/
theorem c4_witness :
    malloc freshFrameState (-1) = Except.error Err.mallocNegativeSize ∧
      malloc (PState.mk [] MEMORY_SIZE [] [] [[]] "" "") 1 =
        Except.ok (0, PState.mk [] MEMORY_SIZE [] [] [[]] "" "") :=
  ⟨(c4_malloc_error_and_null freshFrameState (-1)).1 (by norm_num),
   (c4_malloc_error_and_null (PState.mk [] MEMORY_SIZE [] [] [[]] "" "") 1).2
     (by norm_num) (by decide)⟩

/-- Claim C10 (confirmed).  A read of any in-range address succeeds (the
memory-access branch is unreachable there) and returns the dictionary
content; a successful write updates exactly that dictionary entry; a memory
built from any write history reads back the last write to each address, `0`
for never-written addresses; and `_free` leaves the memory dictionary — and
therefore every read — untouched. -/
theorem c10_memory_read_model (st st2 : PState) (a v p : Int)
    (ws : List (Int × Int)) :
    (0 < a → a < MEMORY_SIZE → get_memory st a = Except.ok (memGet st.memory a)) ∧
      (set_memory st a v = Except.ok st2 → st2.memory = memSet st.memory a v) ∧
      (memGet (memFromWrites ws) a = lastWriteOr0 ws a) ∧
      (free st p = Except.ok st2 →
        st2.memory = st.memory ∧ get_memory st2 a = get_memory st a) := by
  refine ⟨?_, ?_, ?_, ?_⟩
  · intro h1 h2
    rw [get_memory, if_neg]
    rintro (h | h) <;> omega
  · intro h
    rw [set_memory] at h
    split_ifs at h
    cases Except.ok.inj h
    rfl
  · simpa [memFromWrites, lastWriteOr0, memGet] using memGet_foldl_writes ws [] a
  · intro h
    rw [free] at h
    cases hrb : removeBlock st.memory_heap p with
    | none => rw [hrb] at h; simp at h
    | some hs =>
      rw [hrb] at h
      cases h
      exact ⟨rfl, rfl⟩

/-- Witness for C10 at a concrete state, write and free. -/
theorem c10_witness :
    get_memory (PState.mk [(3, 7)] 1 [(9, 2)] [] [[]] "" "") 3 = Except.ok 7 ∧
      (PState.mk [(3, 42)] 1 [(9, 2)] [] [[]] "" "").memory =
        memSet (PState.mk [(3, 7)] 1 [(9, 2)] [] [[]] "" "").memory 3 42 ∧
      memGet (memFromWrites [(3, 5), (4, 6), (3, 7)]) 3 =
        lastWriteOr0 [(3, 5), (4, 6), (3, 7)] 3 ∧
      get_memory (PState.mk [(3, 7)] 1 [] [] [[]] "" "") 3 =
        get_memory (PState.mk [(3, 7)] 1 [(9, 2)] [] [[]] "" "") 3 :=
  ⟨(c10_memory_read_model (PState.mk [(3, 7)] 1 [(9, 2)] [] [[]] "" "")
      (PState.mk [(3, 42)] 1 [(9, 2)] [] [[]] "" "") 3 42 9 [(3, 5), (4, 6), (3, 7)]).1
      (by norm_num) (by decide),
   (c10_memory_read_model (PState.mk [(3, 7)] 1 [(9, 2)] [] [[]] "" "")
      (PState.mk [(3, 42)] 1 [(9, 2)] [] [[]] "" "") 3 42 9 [(3, 5), (4, 6), (3, 7)]).2.1
      (by decide),
   (c10_memory_read_model (PState.mk [(3, 7)] 1 [(9, 2)] [] [[]] "" "")
      (PState.mk [(3, 42)] 1 [(9, 2)] [] [[]] "" "") 3 42 9 [(3, 5), (4, 6), (3, 7)]).2.2.1,
   ((c10_memory_read_model (PState.mk [(3, 7)] 1 [(9, 2)] [] [[]] "" "")
      (PState.mk [(3, 7)] 1 [] [] [[]] "" "") 3 42 9 [(3, 5), (4, 6), (3, 7)]).2.2.2
      (by decide)).2⟩

/-- The observable outcome of running `progC2`: heap list, globals, and
whether the heap respects the claimed bounds. -/
def c2Observation : Option (List (Int × Int) × List String × Bool) :=
  (finalStateOf (runProgram 100 progC2)).map
    (fun st => (st.memory_heap, st.global_variables, heapRespectsBounds st))

/-- The stack-layout side of the same final state: read-only limit and live
frames. -/
def c2StackObservation : Option (Int × List (List String)) :=
  (finalStateOf (runProgram 100 progC2)).map
    (fun st => (st.read_write_stack_limit, st.local_variables))

set_option maxHeartbeats 2000000 in
/-- Claim C2 (code bug).  Loading `progC2` (two globals) and running its
`main` — a single `MALLOC(2^24 - 2)` — completes without any error and
leaves the heap block `(2, 2^24 - 2)`: the block starts at address `2`, the
address of the second global (`read_write_stack_limit 1` plus two globals
and no locals puts the last occupied stack word at `2`), so the claimed
invariant is violated; `_check_memory_limit_exceeded` omits the global
count its own address layout uses. -/
theorem c2_stack_heap_collision_bug :
    c2Observation = some ([(2, 16777214)], ["x", "y"], false) ∧
      c2StackObservation = some (1, []) := by
  constructor <;> decide

set_option maxHeartbeats 2000000 in
/-- Counterexample to claim C8 as stated: the loop's body tests `i == 3`
before printing, so the run prints `"012"`, not `"0123"`. -/
theorem c8_counterexample :
    outputOf (runProgram 100 progC8) = some "012" ∧
      outputOf (runProgram 100 progC8) ≠ some "0123" := by
  constructor <;> decide

set_option maxHeartbeats 2000000 in
/-- Claim C8 (corrected).  The scenario-C program runs to completion with
stdout `"012"` (the loop stops before printing `3`), and the
elementary-operation count strictly increases across every step the `FOR`
node emits itself — its initialisation, each loop-guard test and each
increment step (the steps tagged with the `FOR` node's line, `2`). -/
theorem c8_amended_scenario :
    outputOf (runProgram 100 progC8) = some "012" ∧
      countIncreasesAtLine (traceOf (runProgram 100 progC8)) 2 = true := by
  constructor <;> decide

/-- Counterexample to claim C7 as stated: a program with a duplicated global
name and no `main` fails with the duplicate-global error, not the
missing-main error — `_declare_globals` runs before
`_check_main_function`. -/
theorem c7_counterexample :
    initErrOf 100 progC7 = some Err.sameGlobalVariableName ∧
      Err.sameGlobalVariableName ≠ Err.noMainFunction := by
  constructor <;> decide

/-- Claim C7 (corrected).  Load-time validation declares the globals before
the main-function check: whenever the earlier passes succeed and the
globals block itself fails (for example on a duplicate global name), the
load reports the globals error — even when `main` is also missing. -/
theorem c7_amended_globals_before_main (fuel : Nat) (prog : ProgTree)
    (env : Env) (e : Err)
    (h1 : readFuns prog.functions [] = Except.ok env)
    (h2 : checkLiterals fuel prog = Except.ok ())
    (h3 : declareGlobals env prog.globalsDecl initState = Except.error e) :
    initProgram fuel prog = Except.error e := by
  simp [initProgram, Bind.bind, Except.bind, h1, h2, h3]

/-- Witness for C7: the duplicate-global, no-main program. -/
theorem c7_witness :
    initProgram 100 progC7 = Except.error Err.sameGlobalVariableName :=
  c7_amended_globals_before_main 100 progC7
    [("f", FunInfo.mk [] (Node.block []) 3)] Err.sameGlobalVariableName
    rfl rfl rfl

set_option maxHeartbeats 2000000 in
/-- Counterexample to claim C1 as stated: in `progC1`, the body of `f` is
the bare call `g()` and completes without executing any `RETURN`, yet the
call expression `f()` evaluates to the word `5` — the result `g()` produced
during body execution — not to the word for integer zero. -/
theorem c1_counterexample :
    c1CallValue = some (PyVal.vword 5) ∧ PyVal.vword 5 ≠ PyVal.vword 0 := by
  constructor <;> decide

/-- Claim C1 (corrected).  For every user-defined function whose body
completes execution without executing a `RETURN` statement, the value of
the call expression is the last value produced by the body's statements
during execution (for example by a bare call, whose result is forwarded
out of the function), and is the word encoding integer zero exactly when
no statement of the body produced a value: the call's result is
`lastProducedValue` of the body's forwarded steps with the word `0` as
fallback. -/
theorem c1_amended_last_value_or_zero (fuel : Nat) (env : Env)
    (fname : String) (args : List Int) (st : PState) (fsteps : List Step)
    (stF : PState)
    (h : execFunction fuel env fname args st = Except.ok (fsteps, stF, Sig.normal)) :
    execUserCall (fuel + 1) env fname args st =
      Except.ok (stripVals fsteps, stF,
        (lastProducedValue fsteps).getD (PyVal.vword 0)) := by
  have hcr : callResult fsteps = (lastProducedValue fsteps).getD (PyVal.vword 0) := by
    rw [callResult, capturedValue_eq_lastProduced,
      show PyVal.vword (int_to_bin 0 false) = PyVal.vword 0 from by decide]
  simp [execUserCall, Bind.bind, Except.bind, h, hcr]

/-- Witness for C1, exercising both regimes: the call of `f`, whose body is
the bare call `g()` (with `g` returning `5`) and completes without a
`RETURN`, yields the forwarded value `5`; the call of `h`, whose body is
empty, yields the zero word. -/
theorem c1_witness :
    execUserCall 21
        [("g", FunInfo.mk [] (Node.block [Node.returnrule 2 (Node.atom 21 (Lit.intlit 5))]) 1),
         ("f", FunInfo.mk [] (Node.block [Node.call 4 "g" []]) 3)]
        "f" [] freshFrameState =
      Except.ok
        ([Step.mk false PyVal.vnone 21, Step.mk false PyVal.vnone 2,
          Step.mk true PyVal.vnone 4],
         freshFrameState, PyVal.vword 5) ∧
      execUserCall 6 [("h", FunInfo.mk [] (Node.block []) 1)] "h" [] freshFrameState =
        Except.ok ([], freshFrameState, PyVal.vword 0) := by
  constructor
  · have h := c1_amended_last_value_or_zero 20
      [("g", FunInfo.mk [] (Node.block [Node.returnrule 2 (Node.atom 21 (Lit.intlit 5))]) 1),
       ("f", FunInfo.mk [] (Node.block [Node.call 4 "g" []]) 3)]
      "f" [] freshFrameState
      [Step.mk false PyVal.vnone 21, Step.mk false PyVal.vnone 2,
       Step.mk true (PyVal.vword 5) 4]
      freshFrameState (by decide)
    simpa [stripVals, lastProducedValue] using h
  · have h := c1_amended_last_value_or_zero 5 [("h", FunInfo.mk [] (Node.block []) 1)]
      "h" [] freshFrameState [] freshFrameState (by decide)
    simpa [stripVals, lastProducedValue] using h

/-- Counterexample to claim C3 as stated: after `malloc 1`, `malloc 1`,
`malloc 1`, `free (2^24 - 2)`, the heap is
`[(2^24 - 1, 1), (2^24 - 3, 1)]` with a gap of exactly one free word at
`2^24 - 2`; the claimed placement (first gap of at least `s` free words)
would return `2^24 - 2`, but the next `malloc 1` returns `2^24 - 4`, below
the lowest block — the scan requires a gap strictly larger than the
request. -/
theorem c3_counterexample :
    c3Chain = Except.ok (16777212,
        [(16777215, 1), (16777213, 1)],
        [(16777215, 1), (16777213, 1), (16777212, 1)]) ∧
      mallocClaimSpec [(16777215, 1), (16777213, 1)] 1 = 16777214 ∧
      (16777212 : Int) ≠ 16777214 := by
  refine ⟨by decide, by decide, by decide⟩

/-- The scan of `_malloc` agrees with the amended first-fit rule for every
`previous_address` accumulator value. -/
theorem mallocScanAux_eq_amendedSpecFrom (hs : List (Int × Int)) :
    ∀ (prev : Int) (idx : Nat) (size : Int),
      (mallocScanAux prev hs idx size).1 = mallocAmendedSpecFrom prev hs size := by
  induction hs with
  | nil =>
    intro prev idx size
    simp [mallocScanAux, mallocAmendedSpecFrom, gapsFrom, List.getLastD]
  | cons b rest ih =>
    intro prev idx size
    obtain ⟨a, sz⟩ := b
    by_cases h : a + sz + size < prev
    · have hd : decide (size < prev - (a + sz)) = true := by
        simp only [decide_eq_true_eq]
        omega
      simp [mallocScanAux, mallocAmendedSpecFrom, gapsFrom, List.find?, h, hd]
    · have hd : decide (size < prev - (a + sz)) = false := by
        simp only [decide_eq_false_iff_not]
        omega
      rw [mallocScanAux, if_neg h, ih a (idx + 1) size]
      simp only [mallocAmendedSpecFrom, gapsFrom, List.find?, hd]
      cases hf : (gapsFrom a rest).find? (fun g => decide (size < g.2)) with
      | some g => simp [hf]
      | none =>
        simp only [hf, List.getLastD_eq_getLast?, List.getLast?_cons]
        cases hl : rest.getLast? with
        | none =>
          cases rest with
          | nil => simp
          | cons c cs => simp [List.getLast?] at hl
        | some g => simp

/-- Claim C3 (corrected).  For every request of size `s ≥ 1` on a non-empty
heap list, the allocator scans the gaps from the highest address downward
and places the block at the bottom of the first gap holding **strictly more
than** `s` free words (a gap of exactly `s` free words is skipped); only
when no such gap exists is the block placed immediately below the lowest
block. -/
theorem c3_amended_first_fit_strict (hs : List (Int × Int)) (size : Int)
    (hne : hs ≠ []) (_hsz : 1 ≤ size) :
    (mallocScan hs size).1 = mallocAmendedSpec hs size := by
  cases hs with
  | nil => exact absurd rfl hne
  | cons b rest =>
    rw [mallocScan, mallocScanAux_eq_amendedSpecFrom]
    rfl

/-- Witness for C3 on a one-block heap. -/
theorem c3_witness :
    (mallocScan [(5, 1)] 1).1 = mallocAmendedSpec [(5, 1)] 1 :=
  c3_amended_first_fit_strict [(5, 1)] 1 (by simp) (by norm_num)

end SynC
